import Mathlib

/-!
Verification development for the `puggle` static site generator
(crates `puggle_lib` and `puggle`).

The Rust sources are shallowly embedded:

* `pulldown_cmark` events are modelled by `Puggle.Event`, whose string
  payloads carry the `CowStr` variant (`Borrowed` / `Boxed` / `Inlined`),
  since `puggle_lib::parse` pattern-matches on `CowStr::Borrowed`.
* `puggle_lib::parse` (the event-stream rewriter) is embedded as a fold of
  `Puggle.step` over the event list; its per-line code-block rewriting is
  `Puggle.process_code_line` / `Puggle.rewrite_code_text`.
* External collaborators (the filesystem, the `pulldown_cmark` parser, the
  `minijinja` template engine, `serde_yaml`) are supplied as a `Puggle.World`
  record of oracle functions; `build_from_dir` is embedded against it, with
  `Result`-propagation (`?`) modelled by `Outcome.fail` and `unwrap` panics
  modelled by `Outcome.panicked`.
* `url::Url::join` is modelled opaquely by `Puggle.urlJoin`; setting the
  fragment of a URL is modelled as appending `"#" ++ fragment`, which is the
  behaviour of `url::Url::set_fragment` for fragments without characters
  that need percent-encoding.
* `time::OffsetDateTime` is modelled as an opaque record carrying its Unix
  epoch seconds and its RFC-2822 rendering.
-/

namespace Puggle

/-- Model of `pulldown_cmark::CowStr`: the rewriter in `puggle_lib::parse`
distinguishes the `Borrowed` variant from `Boxed`/`Inlined` by pattern
matching, so the variant is part of the model. -/
inductive CowStr where
  | borrowed (s : String)
  | boxed (s : String)
  | inlined (s : String)
deriving DecidableEq

def CowStr.str : CowStr → String
  | .borrowed s => s
  | .boxed s => s
  | .inlined s => s

inductive HeadingLevel where
  | h1 | h2 | h3 | h4 | h5 | h6
deriving DecidableEq

/-- `pulldown_cmark::HeadingLevel` displays as `h1` .. `h6`. -/
def HeadingLevel.toStr : HeadingLevel → String
  | .h1 => "h1"
  | .h2 => "h2"
  | .h3 => "h3"
  | .h4 => "h4"
  | .h5 => "h5"
  | .h6 => "h6"

inductive MetadataBlockKind where
  | yamlStyle | plusesStyle
deriving DecidableEq

inductive CodeBlockKind where
  | fenced (lang : CowStr)
  | indented
deriving DecidableEq

/-- The tags of `pulldown_cmark::Tag` that `puggle_lib::parse` inspects;
every other tag is collapsed into `other` and handled by the default arm,
exactly as in the Rust `match`. -/
inductive Tag where
  | metadataBlock (k : MetadataBlockKind)
  | codeBlock (k : CodeBlockKind)
  | heading (level : HeadingLevel)
  | other (name : String)
deriving DecidableEq

inductive TagEnd where
  | metadataBlock (k : MetadataBlockKind)
  | codeBlock
  | heading (level : HeadingLevel)
  | other (name : String)
deriving DecidableEq

inductive Event where
  | start (t : Tag)
  | endTag (t : TagEnd)
  | text (s : CowStr)
  | code (s : CowStr)
  | html (s : CowStr)
  | other (name : String)
deriving DecidableEq

/-! ### String helpers mirroring the Rust std functions used by `parse` -/

/-- Rust `str::starts_with` with a string pattern. -/
def strHasPrefixB (p s : String) : Bool := p.data.isPrefixOf s.data

def isSuffixListB (pat l : List Char) : Bool := pat.reverse.isPrefixOf l.reverse

def strHasSuffixB (p s : String) : Bool := isSuffixListB p.data s.data

def isInfixListB (pat l : List Char) : Bool :=
  (List.range (l.length + 1)).any (fun i => pat.isPrefixOf (l.drop i))

def strHasInfixB (p s : String) : Bool := isInfixListB p.data s.data

/-- Number of positions of `s` at which `pat` occurs as a substring. -/
def countOccB (pat s : String) : Nat :=
  ((List.range (s.data.length + 1)).filter (fun i => pat.data.isPrefixOf (s.data.drop i))).length

/-- Split at every occurrence of the character `sep`, keeping empty pieces
(the semantics of Rust `str::split` with a one-character pattern, and of
`String.splitOn` with a one-character separator). -/
def splitChar (sep : Char) : List Char → List (List Char)
  | [] => [[]]
  | c :: rest =>
      let r := splitChar sep rest
      if c = sep then [] :: r
      else
        match r with
        | [] => [[c]]
        | h :: t => (c :: h) :: t

def strSplitChar (sep : Char) (s : String) : List String :=
  (splitChar sep s.data).map String.mk

/-- `String.intercalate`, implemented structurally. -/
def strIntercalate (sep : String) : List String → String
  | [] => ""
  | [x] => x
  | x :: rest => x ++ sep ++ strIntercalate sep rest

/-- `html_escape::encode_text` escapes exactly `&`, `<` and `>`. -/
def htmlEscapeChar (c : Char) : String :=
  if c = '&' then "&amp;"
  else if c = '<' then "&lt;"
  else if c = '>' then "&gt;"
  else String.singleton c

def htmlEscape (s : String) : String := (s.data.map htmlEscapeChar).foldl (fun a b => a ++ b) ""

/-- `line.strip_prefix(" ")`, applied when it succeeds (source lines 224-226). -/
def stripLeadingSpace (line : String) : String :=
  match line.data with
  | ' ' :: rest => ⟨rest⟩
  | _ => line

/-- One round of removing the suffix `pat`; iterated with fuel for
`str::trim_end_matches`. -/
def dropSuffixRepeat (pat : List Char) : Nat → List Char → List Char
  | 0, l => l
  | fuel + 1, l =>
      if isSuffixListB pat l && !pat.isEmpty then
        dropSuffixRepeat pat fuel (l.take (l.length - pat.length))
      else l

/-- Rust `str::trim_end_matches` with a (nonempty) string pattern: repeatedly
removes the pattern from the end while it is a suffix. -/
def trim_end_matches (s pat : String) : String :=
  ⟨dropSuffixRepeat pat.data s.data.length s.data⟩

/-! ### Slug computation (source lines 289-290)
`heading_text.replace(" ", "-").to_lowercase().trim()`.
`replace(" ", "-")` has a single-character pattern, hence is a character map;
`to_lowercase` is modelled on ASCII letters; `trim` strips whitespace from
both ends. -/

def replaceSpace (s : String) : String :=
  ⟨s.data.map (fun c => if c = ' ' then '-' else c)⟩

def lowerChar (c : Char) : Char :=
  if 'A' ≤ c ∧ c ≤ 'Z' then Char.ofNat (c.toNat + 32) else c

def lowerStr (s : String) : String := ⟨s.data.map lowerChar⟩

def trimLeftStr (s : String) : String := ⟨s.data.dropWhile Char.isWhitespace⟩

def trimRightStr (s : String) : String :=
  ⟨(s.data.reverse.dropWhile Char.isWhitespace).reverse⟩

def trimStr (s : String) : String := trimLeftStr (trimRightStr s)

def slugOf (s : String) : String := trimStr (lowerStr (replaceSpace s))

/-- Opaque model of `url::Url::join` on the textual form of URLs. The claims
never depend on its internals, only on the fragment appended after it. -/
def urlJoin (base path : String) : String := base ++ path

/-- `base_url.join(page_path)` followed by `set_fragment(Some slug)`
(source lines 292-297). -/
def headingUrl (base_url page_path slug : String) : String :=
  urlJoin base_url page_path ++ "#" ++ slug

/-! ### The per-line code block rewriting (source lines 204-258) -/

/-- The two fold flags `record_folded_code_block` and
`record_folded_code_block_summary`. -/
structure FoldFlags where
  folded : Bool
  summary : Bool
deriving DecidableEq

def spanNeutral (line : String) : String :=
  "<span>" ++ htmlEscape line ++ "</span>\n"

def spanGreen (line : String) : String :=
  "<span style=\"background: green; color: white;\">" ++ htmlEscape line ++ "</span>\n"

def spanRed (line : String) : String :=
  "<span style=\"background: red; color: white;\">" ++ htmlEscape line ++ "</span>\n"

/-- The body of the `for ref mut line in txt.split("\n")` loop: the string
the branch pushes onto `codeblock`, and the fold flags afterwards.
`line.get(0..1)` is modelled by the first character; for the `"+"`/`"-"`
comparisons the two agree (a multi-byte first character is neither). -/
def process_code_line (detected_lang : Option String) (ff : FoldFlags)
    (line : String) : String × FoldFlags :=
  if strHasPrefixB ("### FOLD_START") line then
    ("<details><summary class=\"foldable\">", ⟨true, true⟩)
  else if strHasPrefixB ("### FOLD_END") line then
    ("</details>", ff)
  else if ff.folded && ff.summary then
    (htmlEscape (stripLeadingSpace line) ++ "</summary>", ⟨ff.folded, false⟩)
  else
    match line.data.head?, detected_lang with
    | some '+', some l =>
        if l = "diff" then (spanGreen line, ff) else (spanNeutral line, ff)
    | some '-', some l =>
        if l = "diff" then (spanRed line, ff) else (spanNeutral line, ff)
    | _, _ => (spanNeutral line, ff)

/-- Push the line's output onto the buffer (`codeblock.push_str`). -/
def code_line_step (detected_lang : Option String) (acc : String × FoldFlags)
    (line : String) : String × FoldFlags :=
  let r := process_code_line detected_lang acc.2 line
  (acc.1 ++ r.1, r.2)

/-- Handling of one `Text` event while `record_code_block` holds
(source lines 204-258): push `<pre><code>`, rewrite each line, trim one run
of trailing `<span></span>\n` repetitions, push `</code></pre>`. -/
def rewrite_code_text (detected_lang : Option String) (codeblock : String)
    (ff : FoldFlags) (txt : String) : String × FoldFlags :=
  let r := (strSplitChar '\n' txt).foldl (code_line_step detected_lang)
    (codeblock ++ "<pre><code>", ff)
  (trim_end_matches r.1 ("<span></span>\n") ++ "</code></pre>", r.2)

/-! ### The event rewriter state machine (source lines 159-332) -/

structure ParseState where
  metadata : Option String
  record_metadata : Bool
  record_code_block : Bool
  record_folded_code_block : Bool
  record_heading : Bool
  record_folded_code_block_summary : Bool
  new_events : List Event
  codeblock : String
  heading_text : String
  detected_lang : Option String
deriving DecidableEq

def initParseState : ParseState :=
  { metadata := none
    record_metadata := false
    record_code_block := false
    record_folded_code_block := false
    record_heading := false
    record_folded_code_block_summary := false
    new_events := []
    codeblock := ""
    heading_text := ""
    detected_lang := none }

/-- One iteration of the `for event in parser` loop of `puggle_lib::parse`. -/
def step (base_url page_path : String) (st : ParseState) (ev : Event) : ParseState :=
  match ev with
  | .start (.metadataBlock .yamlStyle) =>
      { st with record_metadata := true, new_events := st.new_events ++ [ev] }
  | .endTag (.metadataBlock .yamlStyle) =>
      { st with record_metadata := false, new_events := st.new_events ++ [ev] }
  | .code (.borrowed txt) =>
      if st.record_heading then { st with heading_text := st.heading_text ++ txt }
      else { st with new_events := st.new_events ++ [ev] }
  | .text (.borrowed txt) =>
      let md := if st.record_metadata then some txt else st.metadata
      let r :=
        if st.record_code_block then
          rewrite_code_text st.detected_lang st.codeblock
            ⟨st.record_folded_code_block, st.record_folded_code_block_summary⟩ txt
        else (st.codeblock, ⟨st.record_folded_code_block, st.record_folded_code_block_summary⟩)
      let ht := if st.record_heading then st.heading_text ++ txt else st.heading_text
      let evs :=
        if !st.record_code_block && !st.record_heading then st.new_events ++ [ev]
        else st.new_events
      { st with metadata := md, codeblock := r.1, record_folded_code_block := r.2.folded,
                record_folded_code_block_summary := r.2.summary, heading_text := ht,
                new_events := evs }
  | .start (.codeBlock (.fenced (.borrowed lang))) =>
      { st with detected_lang := some lang, record_code_block := true }
  | .endTag .codeBlock =>
      { st with new_events := st.new_events ++ [.html (.boxed st.codeblock)],
                codeblock := "", record_code_block := false }
  | .start (.heading _) =>
      { st with record_heading := true }
  | .endTag (.heading .h1) =>
      let heading := "<h1>" ++ st.heading_text ++ "</h1>"
      { st with new_events := st.new_events ++ [.html (.boxed heading)],
                heading_text := "", record_heading := false }
  | .endTag (.heading level) =>
      let slug := slugOf st.heading_text
      let hurl := headingUrl base_url page_path slug
      let heading := "<" ++ level.toStr ++ " id=\"" ++ slug ++ "\"><a href=\"" ++ hurl ++ "\">" ++ st.heading_text ++ "</a></" ++ level.toStr ++ ">"
      { st with new_events := st.new_events ++ [.html (.boxed heading)],
                heading_text := "", record_heading := false }
  | e => { st with new_events := st.new_events ++ [e] }

/-- The whole event loop of `puggle_lib::parse`. -/
def parse_events (base_url page_path : String) (events : List Event) : ParseState :=
  events.foldl (step base_url page_path) initParseState

/-! ### Metadata (source lines 89-108) and the tail of `parse` (313-331) -/

/-- Opaque model of `time::OffsetDateTime`: a timestamp together with the two
observations the program makes of it (`unix_timestamp()` and the RFC-2822
rendering used for `pub_date`). -/
structure OffsetDateTime where
  unix_timestamp : Int
  rfc2822 : String
deriving DecidableEq

/-- `puggle_lib::Metadata`. `unix_created_at`, `unix_updated_at` and
`file_name` are `#[serde(skip_deserializing)]` in the source; in the model
the deserializer oracle is free to populate them, and the theorems show the
program overwrites them. `custom`'s `HashMap` is an association list. -/
structure Metadata where
  title : String
  created_at : Option OffsetDateTime
  updated_at : Option OffsetDateTime
  unix_created_at : Option Int
  unix_updated_at : Option Int
  tags : List String
  file_name : String
  cover : Option String
  summary : Option String
  aliases : Option (List String)
  author_email : Option String
  custom : Option (List (String × String))
deriving DecidableEq

structure PuggleParser where
  metadata : Option Metadata
  events : List Event
deriving DecidableEq

/-- The metadata post-processing of `parse` (source lines 316-320): overwrite
the unix fields from the parsed timestamps. -/
def augment_metadata (md : Metadata) : Metadata :=
  { md with unix_created_at := md.created_at.map OffsetDateTime.unix_timestamp,
            unix_updated_at := md.updated_at.map OffsetDateTime.unix_timestamp }

/-- `puggle_lib::parse` (source lines 159-332). `deserialize_yaml` is the
`serde_yaml::from_str::<Metadata>` oracle; its error aborts the entry via
`?` (line 314). -/
def parse (deserialize_yaml : String → Except String Metadata)
    (base_url page_path : String) (events : List Event) : Except String PuggleParser :=
  let st := parse_events base_url page_path events
  match st.metadata with
  | none => .ok { metadata := none, events := st.new_events }
  | some mtxt =>
      match deserialize_yaml mtxt with
      | .error e => .error e
      | .ok md => .ok { metadata := some (augment_metadata md), events := st.new_events }

/-! ### Configuration data model (source lines 17-76) -/

inductive Entry where
  | dir (source_dir : String) (template_path : String)
  | file (markdown_path : String) (template_path : String)
deriving DecidableEq

structure PageWithEntries where
  name : String
  description : Option String
  rss : Bool
  rss_name : Option String
  template_path : String
  entries : List Entry
deriving DecidableEq

structure StandalonePage where
  name : String
  template_path : String
deriving DecidableEq

inductive Page where
  | withEntries (p : PageWithEntries)
  | standalone (p : StandalonePage)
deriving DecidableEq

def Page.get_name : Page → String
  | .withEntries p => p.name
  | .standalone p => p.name

def Page.get_template_path : Page → String
  | .withEntries p => p.template_path
  | .standalone p => p.template_path

structure Config where
  pages : List Page
  templates_dir : String
  dest_dir : String
  base_url : String
deriving DecidableEq

/-! ### Path helpers mirroring `std::path` as used by `build_from_dir` -/

def pathJoin (a b : String) : String := if a = "" then b else a ++ "/" ++ b

def lastComponent (p : String) : String := ((strSplitChar '/' p).getLast?).getD ""

/-- The stem of a file name: the part before the last `.` when there is one. -/
def stripExtension (n : String) : String :=
  let parts := strSplitChar '.' n
  if parts.length ≤ 1 then n else strIntercalate "." parts.dropLast

/-- `Path::file_stem`, on the last path component. -/
def fileStem (p : String) : Option String :=
  let n := lastComponent p
  if n = "" then none else some (stripExtension n)

/-- `Path::extension`, on the last path component. -/
def extensionOf (p : String) : Option String :=
  let parts := strSplitChar '.' (lastComponent p)
  if parts.length ≤ 1 then none else parts.getLast?

/-- `Path::with_extension`: replace (or add) the extension of the last
component. -/
def withExtension (p e : String) : String :=
  let comps := strSplitChar '/' p
  let name := comps.getLast?.getD ""
  strIntercalate "/" (comps.dropLast ++ [stripExtension name ++ "." ++ e])

/-- `Path::parent`: `None` for the empty path, otherwise drop the last
component. -/
def parentDir (p : String) : Option String :=
  if p = "" then none
  else some (strIntercalate "/" ((strSplitChar '/' p).dropLast))

/-! ### Association lists standing in for the two `HashMap`s of
`build_from_dir` (`context` and `feed_context`). The feed-write loop
iterates `feed_context`; `HashMap` iteration order is arbitrary in Rust, the
model fixes insertion order (no claim depends on cross-page order). -/

def lookupA {β : Type} : List (String × β) → String → Option β
  | [], _ => none
  | (k', v) :: rest, k => if k' = k then some v else lookupA rest k

def updateA {β : Type} : List (String × β) → String → β → List (String × β)
  | [], _, _ => []
  | (k', v) :: rest, k, nv =>
      if k' = k then (k', nv) :: rest else (k', v) :: updateA rest k nv

def insertA {β : Type} (l : List (String × β)) (k : String) (v : β) : List (String × β) :=
  if (lookupA l k).isSome then updateA l k v else l ++ [(k, v)]

/-! ### RSS model (`rss` crate values as built by the source) -/

/-- The fields of `rss::Item` populated by `generate_rss_item`
(source lines 718-729). -/
structure RssItem where
  title : Option String
  author : Option String
  description : Option String
  content : Option String
  link : Option String
  pub_date : Option String
  guid_value : String
  guid_permalink : Bool
deriving DecidableEq

/-- `puggle_lib::RssFeed` (source lines 152-157). -/
structure RssFeed where
  name : Option String
  description : Option String
  items : List RssItem
deriving DecidableEq

/-- The fields of the `rss::Channel` built at source lines 655-672. -/
structure Channel where
  title : String
  link : String
  description : String
  items : List RssItem
  language : Option String
  atom_links : List (String × String)
deriving DecidableEq

/-! ### Effects: errors, panics, and the oracle world -/

/-- `ParseFilesError` plus the `color_eyre::Report` shapes that reach the
orchestrator (source lines 125-145 and ad-hoc `Report::msg`). -/
inductive BuildError where
  | io (s : String)
  | parent
  | fileName
  | yaml (s : String)
  | renderError (s : String)
  | msg (s : String)
  | templateEnvironment (s : String)
  | templateRender (s : String)
deriving DecidableEq

/-- Result of running a fallible, possibly panicking computation: `ok` and
`fail` are `Result`'s variants, `panicked` models a Rust `unwrap` panic. -/
inductive Outcome (α : Type) where
  | ok (a : α)
  | fail (e : BuildError)
  | panicked (msg : String)
deriving DecidableEq

def Outcome.bind {α β : Type} : Outcome α → (α → Outcome β) → Outcome β
  | .ok a, f => f a
  | .fail e, _ => .fail e
  | .panicked m, _ => .panicked m

instance : Monad Outcome where
  pure := Outcome.ok
  bind := Outcome.bind

def liftIo {α : Type} : Except String α → Outcome α
  | .ok a => .ok a
  | .error e => .fail (.io e)

def liftYaml {α : Type} : Except String α → Outcome α
  | .ok a => .ok a
  | .error e => .fail (.yaml e)

def liftRender {α : Type} : Except String α → Outcome α
  | .ok a => .ok a
  | .error e => .fail (.renderError e)

/-- Errors of the standalone-page rendering: `get_template` failures map to
`TemplateEnvironment`, `render` failures to `TemplateRender`
(source lines 629-634). -/
inductive NamedErr where
  | envErr (s : String)
  | renderErr (s : String)
deriving DecidableEq

/-- Oracle record for everything outside `puggle_lib`'s own logic: the
filesystem, `pulldown_cmark`, `serde_yaml` and `minijinja`. Filesystem
write effects report success or an error; successful writes are recorded by
the embedding in `BuildState`. -/
structure World where
  read_dir_entries : String → Except String (List (String × Bool))
  read_to_string : String → Except String String
  parse_markdown : String → List Event
  deserialize_yaml : String → Except String Metadata
  push_html : List Event → String
  template_from_str_render : String → Metadata → Except String String
  get_template_render : String → List (String × List Metadata) → Except NamedErr String
  dir_exists : String → Bool
  create_dir_all : String → Except String Unit
  write_file : String → String → Except String Unit
  create_file : String → Except String Unit
  write_channel : Channel → Except String Unit

/-- Observable output of a build: every file written, in order, and every
RSS channel serialized. -/
structure BuildState where
  written : List (String × String)
  feeds_written : List (String × Channel)
deriving DecidableEq

def initBuildState : BuildState := { written := [], feeds_written := [] }

/-! ### `build_from_dir` (source lines 385-684), piece by piece -/

/-- The inline template of `render_entry` (source lines 353-359): an
`extends`/`block content` scaffold around the partial, joined by newlines. -/
def entry_template_source (template_path inner : String) : String :=
  strIntercalate "\n"
    ["\x7b% extends \"" ++ template_path ++ "\" %\x7d",
     "\x7b% block content %\x7d",
     inner,
     "\x7b% endblock %\x7d"]

/-- `render_entry` (source lines 347-367): compile the scaffold from a
string and render it with the metadata context. -/
def render_entry_m (w : World) (inner : String) (metadata : Metadata)
    (template_path : String) : Except String String :=
  w.template_from_str_render (entry_template_source template_path inner) metadata

/-- `render_partial` (source lines 334-345). -/
def render_partial_m (w : World) (inner : String) (metadata : Metadata) :
    Except String String :=
  w.template_from_str_render inner metadata

/-- `generate_rss_item` (source lines 700-732). The inner
`render_partial(...).unwrap()` (line 716) panics on a render error. -/
def generate_rss_item (w : World) (config : Config) (metadata : Metadata)
    (html : String) : Outcome RssItem :=
  let page_url := urlJoin config.base_url metadata.file_name
  match render_partial_m w html metadata with
  | .error _ => .panicked "called Result::unwrap on an Err value"
  | .ok rendered =>
      .ok { title := some metadata.title
            author := metadata.author_email
            description := metadata.summary
            content := some rendered
            link := some page_url
            pub_date := metadata.created_at.map OffsetDateTime.rfc2822
            guid_value := page_url
            guid_permalink := false }

/-- The `if !target.parent().exists() { create_dir_all(...)? }` idiom used
before every write (e.g. source lines 482-490); `parent()` being `None`
raises `ParseFilesError::Parent`. -/
def ensure_parent_dir (w : World) (target : String) : Outcome Unit :=
  match parentDir target with
  | none => .fail .parent
  | some parent =>
      if w.dir_exists parent then .ok ()
      else match w.create_dir_all parent with
           | .ok _ => .ok ()
           | .error e => .fail (.io e)

/-- `std::fs::write(target, content)?`, recording the successful write. -/
def write_out (w : World) (st : BuildState) (target content : String) :
    Outcome BuildState :=
  match w.write_file target content with
  | .ok _ => .ok { st with written := st.written ++ [(target, content)] }
  | .error e => .fail (.io e)

/-- The literal redirect stub of source lines 509-527, with `{0}` the title
and `{1}` the canonical `page/stem` path. -/
def redirect_html (title canonical : String) : String :=
  "<!DOCTYPE html>\n<html>\n  <head>\n    <title>" ++ title
    ++ "</title>\n    <link rel=\"canonical\" href=\"/" ++ canonical
    ++ "\"/>\n    <meta http-equiv=\"content-type\" content=\"text/html; charset=utf-8\"/>\n    <meta http-equiv=\"refresh\" content=\"0; url=/"
    ++ canonical
    ++ "\"/>\n  </head>\n  <body>\n    If you aren\x27t redirected, you can manually click this link:\n    <a href=\"/"
    ++ canonical ++ "\">/" ++ canonical ++ "</a>.\n  </body>\n</html>"

def alias_target (dest_dir page_name a : String) : String :=
  withExtension (pathJoin (pathJoin (pathJoin dest_dir page_name) a) "index") "html"

def entry_target (dest_dir page_name stem : String) : String :=
  withExtension (pathJoin (pathJoin (pathJoin dest_dir page_name) stem) "index") "html"

/-- The `for alias in aliases` loop of the `Entry::Dir` branch
(source lines 495-530). -/
def write_alias_list (w : World) (dest_dir page_name stem title : String) :
    List String → BuildState → Outcome BuildState
  | [], st => .ok st
  | a :: rest, st => do
      let target := alias_target dest_dir page_name a
      let _ ← ensure_parent_dir w target
      let st ← write_out w st target (redirect_html title (pathJoin page_name stem))
      write_alias_list w dest_dir page_name stem title rest st

/-- `if let Some(ref aliases) = metadata.aliases { ... }`
(source lines 494-531). Only the `Entry::Dir` branch runs this. -/
def write_aliases (w : World) (dest_dir page_name stem : String)
    (metadata : Metadata) (st : BuildState) : Outcome BuildState :=
  match metadata.aliases with
  | none => .ok st
  | some aliases => write_alias_list w dest_dir page_name stem metadata.title aliases st

/-- Processing of one markdown file inside an `Entry::Dir`
(source lines 426-534). Missing metadata is an error carrying the source
path (`ok_or(Report::msg(...))?`, lines 446-455); alias stubs are written. -/
def process_dir_file (w : World) (config : Config) (page : PageWithEntries)
    (template_path : String) (file : String)
    (acc : BuildState × List Metadata × List RssItem) :
    Outcome (BuildState × List Metadata × List RssItem) := do
  let (st, metadata_list, rss_items) := acc
  let markdown ← liftIo (w.read_to_string file)
  let stem ← match fileStem file with
    | none => Outcome.fail .fileName
    | some s => Outcome.ok s
  let pp ← liftYaml (parse w.deserialize_yaml config.base_url
    (page.name ++ "/" ++ stem) (w.parse_markdown markdown))
  let html_partial := w.push_html pp.events
  let metadata ← match pp.metadata with
    | some m => Outcome.ok { m with file_name := stem }
    | none =>
        Outcome.fail (.msg ("failed to extract metadata from file \"" ++ file ++ "\""))
  let html ← liftRender (render_entry_m w html_partial metadata template_path)
  let rss_items ← if page.rss then do
      let item ← generate_rss_item w config metadata html_partial
      pure (rss_items ++ [item])
    else pure rss_items
  let target := entry_target config.dest_dir page.name stem
  let _ ← ensure_parent_dir w target
  let st ← write_out w st target html
  let st ← write_aliases w config.dest_dir page.name stem metadata st
  pure (st, metadata_list ++ [metadata], rss_items)

/-- Processing of an `Entry::File` (source lines 536-599). Missing metadata
hits `.unwrap()` (line 559) and panics; no alias stubs are written. -/
def process_file_entry (w : World) (config : Config) (page : PageWithEntries)
    (markdown_path template_path : String)
    (st : BuildState) (metadata_list : List Metadata) (rss_items : List RssItem) :
    Outcome (BuildState × List Metadata × List RssItem) := do
  let stem ← match fileStem markdown_path with
    | none => Outcome.fail .fileName
    | some s => Outcome.ok s
  let markdown ← liftIo (w.read_to_string markdown_path)
  let pp ← liftYaml (parse w.deserialize_yaml config.base_url
    (page.name ++ "/" ++ stem) (w.parse_markdown markdown))
  let html_partial := w.push_html pp.events
  let metadata ← match pp.metadata with
    | some m => Outcome.ok { m with file_name := stem }
    | none => Outcome.panicked "called Option::unwrap on a None value"
  let html ← liftRender (render_entry_m w html_partial metadata template_path)
  let rss_items ← if page.rss then do
      let item ← generate_rss_item w config metadata html_partial
      pure (rss_items ++ [item])
    else pure rss_items
  let target := entry_target config.dest_dir page.name stem
  let _ ← ensure_parent_dir w target
  let st ← write_out w st target html
  pure (st, metadata_list ++ [metadata], rss_items)

/-- `get_markdown_paths` (source lines 369-383): direct children that are
files with extension `md` (per-entry `read_dir` errors are filtered out
before `collect`, so only the `read_dir` call itself can fail). -/
def get_markdown_paths (w : World) (dir : String) : Outcome (List String) :=
  match w.read_dir_entries dir with
  | .error e => .fail (.io e)
  | .ok entries =>
      .ok ((entries.filter (fun pr => pr.2 && ((extensionOf pr.1).getD "" == "md"))).map (·.1))

/-- The per-entry epilogue on `feed_context` (source lines 604-616):
`append` (which drains `rss_items`) when the page already has a feed,
`insert` of a clone (which does NOT drain `rss_items`) when it does not. -/
def update_feed_context (page : PageWithEntries) (feeds : List (String × RssFeed))
    (rss_items : List RssItem) : List (String × RssFeed) × List RssItem :=
  match lookupA feeds page.name with
  | some feed => (updateA feeds page.name { feed with items := feed.items ++ rss_items }, [])
  | none =>
      (insertA feeds page.name
        { name := page.rss_name, description := page.description, items := rss_items },
       rss_items)

/-- One iteration of `for entry in page.entries.iter()`
(source lines 418-617), including the `context.insert` and `feed_context`
epilogue that run after each entry. -/
def process_entry (w : World) (config : Config) (page : PageWithEntries)
    (acc : BuildState × List Metadata × List RssItem
      × List (String × List Metadata) × List (String × RssFeed))
    (entry : Entry) :
    Outcome (BuildState × List Metadata × List RssItem
      × List (String × List Metadata) × List (String × RssFeed)) := do
  let (st, ml, ri, ctx, feeds) := acc
  let r ← match entry with
    | .dir source_dir template_path => do
        let files ← get_markdown_paths w source_dir
        files.foldlM (fun a file => process_dir_file w config page template_path file a)
          (st, ml, ri)
    | .file markdown_path template_path =>
        process_file_entry w config page markdown_path template_path st ml ri
  let (st, ml, ri) := r
  let ctx := insertA ctx page.name ml
  let fr := update_feed_context page feeds ri
  pure (st, ml, fr.2, ctx, fr.1)

/-- One iteration of `for page in pages_with_entries` (source lines
414-618): `metadata_list` and `rss_items` start empty for each page. -/
def process_page (w : World) (config : Config)
    (acc : BuildState × List (String × List Metadata) × List (String × RssFeed))
    (page : PageWithEntries) :
    Outcome (BuildState × List (String × List Metadata) × List (String × RssFeed)) := do
  let (st, ctx, feeds) := acc
  let r ← page.entries.foldlM (process_entry w config page) (st, [], [], ctx, feeds)
  pure (r.1, r.2.2.2.1, r.2.2.2.2)

/-- One iteration of the standalone/listing loop (source lines 621-650).
The final `let _ = std::fs::write(target_file, html);` (line 649) discards
the write result, so a failed write leaves the state unchanged and the loop
continues. -/
def standalone_target (config : Config) (page : Page) : String :=
  withExtension (pathJoin (pathJoin config.dest_dir page.get_name) "index") "html"

def render_standalone_page (w : World) (config : Config)
    (ctx : List (String × List Metadata)) (st : BuildState) (page : Page) :
    Outcome BuildState := do
  let html ← match w.get_template_render page.get_template_path ctx with
    | .error (.envErr e) => Outcome.fail (.templateEnvironment e)
    | .error (.renderErr e) => Outcome.fail (.templateRender e)
    | .ok h => Outcome.ok h
  let target := standalone_target config page
  let _ ← ensure_parent_dir w target
  match w.write_file target html with
  | .ok _ => pure { st with written := st.written ++ [(target, html)] }
  | .error _ => pure st

/-- The channel assembled at source lines 655-672. -/
def build_channel (config : Config) (page_name : String) (feed : RssFeed) : Channel :=
  { title := feed.name.getD page_name
    link := config.base_url
    description := feed.description.getD ""
    items := feed.items
    language := some "en"
    atom_links := [("self", config.base_url)] }

/-- One iteration of the feed-writing loop (source lines 653-681):
`File::create(...).unwrap()` and `channel.write_to(...).unwrap()` both panic
on error. -/
def write_rss_feed (w : World) (config : Config) (st : BuildState)
    (pf : String × RssFeed) : Outcome BuildState :=
  let channel := build_channel config pf.1 pf.2
  let target := withExtension (pathJoin config.dest_dir pf.1) "rss"
  match w.create_file target with
  | .error _ => .panicked "called Result::unwrap on an Err value"
  | .ok _ =>
      match w.write_channel channel with
      | .error _ => .panicked "called Result::unwrap on an Err value"
      | .ok _ => .ok { st with feeds_written := st.feeds_written ++ [(target, channel)] }

/-- `puggle_lib::build_from_dir` (source lines 385-684): the entries pass
over the pages with entries, then the standalone/listing pass over all
pages, then the feed-writing pass. -/
def build_from_dir (w : World) (config : Config) : Outcome BuildState := do
  let pages_with_entries := config.pages.foldl (fun acc page =>
      match page with
      | .withEntries p => acc ++ [p]
      | .standalone _ => acc) []
  let r ← pages_with_entries.foldlM (process_page w config) (initBuildState, [], [])
  let (st, ctx, feeds) := r
  let st ← config.pages.foldlM (render_standalone_page w config ctx) st
  let st ← feeds.foldlM (write_rss_feed w config) st
  pure st

/-! ### `Config::from_file` (source lines 78-87) and the CLI path resolution
(`main.rs` lines 74-79) -/

/-- `Config::from_file` as defined in `puggle_lib` (source lines 78-87): it
takes NO path argument and layers the fixed sources `puggle.yaml` and
`puggle.yml` from the working directory (both optional, the later file
overriding). The filesystem is an association list from file name to the
already-decoded configuration; the key-level merge of the `config` crate is
modelled as the later source winning. -/
def Config.from_file (fs : List (String × Config)) : Except String Config :=
  match lookupA fs "puggle.yml" with
  | some c => .ok c
  | none =>
      match lookupA fs "puggle.yaml" with
      | some c => .ok c
      | none => .error "missing field pages"

/-- `main.rs` lines 74-77: the `-c` (long form `--config-path`) flag,
defaulting to `puggle.yaml`. -/
def resolve_config_path (flag : Option String) : String := flag.getD "puggle.yaml"

/-- `main.rs` line 79 resolves the flag and calls
`Config::from_file(config_path.as_str())` — but `Config::from_file` as
defined in `puggle_lib` accepts no argument (the call does not even
type-check against it) and reads the fixed names, so the resolved path is
unused. -/
def main_load_config (flag : Option String) (fs : List (String × Config)) :
    Except String Config :=
  let _config_path := resolve_config_path flag
  Config.from_file fs

/-! ### Specification-side description of the feed accumulation -/

/-- The per-page fold that `build_from_dir`'s entry loop performs on
`feed_context` and the pending `rss_items`: each entry contributes a batch
of items, which is first appended to the pending list and then flushed via
`update_feed_context`. -/
def feed_batches_fold (page : PageWithEntries)
    (acc : List (String × RssFeed) × List RssItem)
    (batches : List (List RssItem)) : List (String × RssFeed) × List RssItem :=
  batches.foldl (fun a batch => update_feed_context page a.1 (a.2 ++ batch)) acc

/-- What the feed accumulation actually produces: with at least two entry
batches, the first batch appears twice (once via the `insert` of a clone,
once via the later `append` of the still-undrained pending list). -/
def dup_first_items : List (List RssItem) → List RssItem
  | [] => []
  | [b] => b
  | b :: rest => b ++ b ++ rest.flatten

/-! ### Concrete data for counterexamples and witnesses -/

/-- A minimal metadata record with the given title. -/
def mkMetadata (t : String) : Metadata :=
  { title := t, created_at := none, updated_at := none, unix_created_at := none,
    unix_updated_at := none, tags := [], file_name := "", cover := none,
    summary := none, aliases := none, author_email := none, custom := none }

/-- A world in which every external call succeeds: two markdown files with
one-line YAML front matter deserializing to titles `A` and `B`. -/
def happyWorld : World :=
  { read_dir_entries := fun _ => .ok []
    read_to_string := fun p =>
      if p = "a.md" then .ok "mda" else if p = "b.md" then .ok "mdb" else .error "not found"
    parse_markdown := fun s =>
      if s = "mda" then
        [.start (.metadataBlock .yamlStyle), .text (.borrowed "ya"),
         .endTag (.metadataBlock .yamlStyle)]
      else if s = "mdb" then
        [.start (.metadataBlock .yamlStyle), .text (.borrowed "yb"),
         .endTag (.metadataBlock .yamlStyle)]
      else []
    deserialize_yaml := fun s =>
      if s = "ya" then .ok (mkMetadata "A")
      else if s = "yb" then .ok (mkMetadata "B")
      else .error "bad yaml"
    push_html := fun _ => "<p>x</p>"
    template_from_str_render := fun _ _ => .ok "HTML"
    get_template_render := fun _ _ => .ok "LIST"
    dir_exists := fun _ => true
    create_dir_all := fun _ => .ok ()
    write_file := fun _ _ => .ok ()
    create_file := fun _ => .ok ()
    write_channel := fun _ => .ok () }

/-- Config for the C1 counterexample: one `rss: true` page with two `File`
entries. -/
def rssTwoEntriesConfig : Config :=
  { pages := [.withEntries
      { name := "blog", description := some "d", rss := true, rss_name := some "My Feed",
        template_path := "t.html", entries := [.file "a.md" "t.html", .file "b.md" "t.html"] }]
    templates_dir := "tpl", dest_dir := "dest", base_url := "https://e/" }

/-- The titles of the items of every feed the build emits. -/
def feedItemTitles (r : Outcome BuildState) : List (List (Option String)) :=
  match r with
  | .ok st => st.feeds_written.map (fun pr => pr.2.items.map RssItem.title)
  | _ => []

/-- World for the C2 counterexample: the single entry's metadata carries an
alias. -/
def aliasWorld : World :=
  { happyWorld with
    deserialize_yaml := fun s =>
      if s = "ya" then .ok { mkMetadata "A" with aliases := some ["old-name"] }
      else .error "bad yaml" }

/-- Config with one page holding a single `File` entry. -/
def oneFileEntryConfig : Config :=
  { pages := [.withEntries
      { name := "blog", description := none, rss := false, rss_name := none,
        template_path := "t.html", entries := [.file "a.md" "t.html"] }]
    templates_dir := "tpl", dest_dir := "dest", base_url := "https://e/" }

/-- World for the C3 counterexample: the markdown parses to an event stream
with no metadata block. -/
def noMetaWorld : World := { happyWorld with parse_markdown := fun _ => [] }

/-- World for the C4 counterexample: every `std::fs::write` fails. -/
def writeFailWorld : World :=
  { happyWorld with write_file := fun _ _ => .error "disk full" }

/-- World for the C4 witness: `File::create` fails. -/
def createFailWorld : World :=
  { happyWorld with create_file := fun _ => .error "permission denied" }

/-- Config with a single standalone page. -/
def oneStandaloneConfig : Config :=
  { pages := [.standalone { name := "about", template_path := "about.html" }]
    templates_dir := "tpl", dest_dir := "dest", base_url := "https://e/" }

/-- Two configurations distinguishable by their `base_url`, for the
`Config::from_file` counterexample. -/
def cfgAtCustom : Config :=
  { pages := [], templates_dir := "t", dest_dir := "d", base_url := "https://custom/" }

def cfgAtFixed : Config :=
  { pages := [], templates_dir := "t", dest_dir := "d", base_url := "https://fixed/" }

/-- A concrete parse input having YAML front matter, for the C8 witness. -/
def c8Events : List Event :=
  [.start (.metadataBlock .yamlStyle), .text (.borrowed "ym"),
   .endTag (.metadataBlock .yamlStyle)]

/-- What the C8 witness deserializer returns: note the unix fields carry
junk values `999`/`888`, which the program must overwrite. -/
def c8RawMeta : Metadata :=
  { mkMetadata "T" with
      created_at := some { unix_timestamp := 123, rfc2822 := "rc" },
      unix_created_at := some 999, unix_updated_at := some 888 }

def c8Deser : String → Except String Metadata := fun s =>
  if s = "ym" then .ok c8RawMeta else .error "bad yaml"

def c8Meta : Metadata := augment_metadata c8RawMeta

def c8Parsed : PuggleParser := { metadata := some c8Meta, events := c8Events }

/-- A parse state mid-heading, for the C7 witness. -/
def c7State : ParseState := { initParseState with heading_text := "My Heading" }

/-! ## Theorems -/

/-! ### Generic lemmas about the embedding's data types -/

theorem strdata_append (a b : String) : (a ++ b).data = a.data ++ b.data := rfl

theorem str_empty_append (a : String) : "" ++ a = a := by cases a; rfl

theorem str_append_empty (a : String) : a ++ "" = a := by
  cases a; simp [String.append]

theorem prefixB_iff {l₁ l₂ : List Char} : l₁.isPrefixOf l₂ = true ↔ l₁ <+: l₂ :=
  List.isPrefixOf_iff_prefix

theorem suffixB_iff {l₁ l₂ : List Char} : isSuffixListB l₁ l₂ = true ↔ l₁ <:+ l₂ := by
  unfold isSuffixListB
  rw [prefixB_iff]
  exact List.reverse_prefix

theorem strHasPrefixB_iff {p s : String} : strHasPrefixB p s = true ↔ p.data <+: s.data :=
  prefixB_iff

theorem strHasSuffixB_iff {p s : String} : strHasSuffixB p s = true ↔ p.data <:+ s.data :=
  suffixB_iff

theorem outcome_bind_eq {α β : Type} (x : Outcome α) (f : α → Outcome β) :
    x >>= f = Outcome.bind x f := rfl

theorem outcome_pure_eq {α : Type} (a : α) : (pure a : Outcome α) = Outcome.ok a := rfl

theorem outcome_bind_ok {α β : Type} (x : Outcome α) (f : α → Outcome β) (b : β) :
    Outcome.bind x f = .ok b ↔ ∃ a, x = .ok a ∧ f a = .ok b := by
  cases x <;> simp [Outcome.bind]

theorem outcome_ok_bind {α β : Type} (a : α) (f : α → Outcome β) :
    Outcome.bind (.ok a) f = f a := rfl

theorem outcome_fail_bind {α β : Type} (e : BuildError) (f : α → Outcome β) :
    Outcome.bind (.fail e) f = .fail e := rfl

theorem outcome_panicked_bind {α β : Type} (m : String) (f : α → Outcome β) :
    Outcome.bind (.panicked m) f = .panicked m := rfl

/-- A successful `write_out` appends exactly the written pair. -/
theorem write_out_ok {w : World} {st : BuildState} {target content : String}
    {st' : BuildState} (h : write_out w st target content = .ok st') :
    st'.written = st.written ++ [(target, content)] := by
  unfold write_out at h
  cases hc : w.write_file target content with
  | ok u => rw [hc] at h; cases h; rfl
  | error e => rw [hc] at h; cases h

/-! ### Claim C10 -/

/-- Claim C10: the rewriter's capture logic only fires for events whose
string payload is a borrowed slice of the input. A `Text`, inline `Code`,
or fenced-code-language value supplied as a boxed or inlined string falls
through to the default branch of `step` and is forwarded unchanged; in
particular no buffer, no flag and not `detected_lang` changes, whatever the
current recording state is. -/
theorem c10_nonborrowed_forwarded (base_url page_path : String) (st : ParseState)
    (s : String) :
    step base_url page_path st (.text (.boxed s))
      = { st with new_events := st.new_events ++ [.text (.boxed s)] }
    ∧ step base_url page_path st (.text (.inlined s))
      = { st with new_events := st.new_events ++ [.text (.inlined s)] }
    ∧ step base_url page_path st (.code (.boxed s))
      = { st with new_events := st.new_events ++ [.code (.boxed s)] }
    ∧ step base_url page_path st (.code (.inlined s))
      = { st with new_events := st.new_events ++ [.code (.inlined s)] }
    ∧ step base_url page_path st (.start (.codeBlock (.fenced (.boxed s))))
      = { st with new_events := st.new_events ++ [.start (.codeBlock (.fenced (.boxed s)))] }
    ∧ step base_url page_path st (.start (.codeBlock (.fenced (.inlined s))))
      = { st with new_events := st.new_events ++ [.start (.codeBlock (.fenced (.inlined s)))] } :=
  ⟨rfl, rfl, rfl, rfl, rfl, rfl⟩

/-! ### Claim C9 -/

/-- Claim C9 (code bug): `main.rs` resolves the `-c` flag (default
`puggle.yaml`) but `Config::from_file` as defined in `puggle_lib` takes no
path and loads the fixed working-directory names, so with the flag set to
`custom.yaml` the configuration is read from `puggle.yaml`, not from the
supplied path. -/
theorem c9_config_path_ignored :
    resolve_config_path none = "puggle.yaml"
    ∧ resolve_config_path (some "custom.yaml") = "custom.yaml"
    ∧ main_load_config (some "custom.yaml")
        [("custom.yaml", cfgAtCustom), ("puggle.yaml", cfgAtFixed)] = .ok cfgAtFixed
    ∧ cfgAtFixed ≠ cfgAtCustom := by
  refine ⟨rfl, rfl, rfl, ?_⟩
  decide

/-! ### Slug lemmas (for claim C7) -/

theorem lowerChar_toNat_of_upper {c : Char} (h : 'A' ≤ c ∧ c ≤ 'Z') :
    (lowerChar c).toNat = c.toNat + 32 := by
  unfold lowerChar
  rw [if_pos h]
  have hlt : c.toNat + 32 < 55296 := by
    have : c.toNat ≤ 90 := h.2
    omega
  unfold Char.ofNat
  rw [dif_pos (Or.inl hlt)]
  rfl

theorem lowerChar_of_not_upper {c : Char} (h : ¬ ('A' ≤ c ∧ c ≤ 'Z')) :
    lowerChar c = c := by
  unfold lowerChar
  rw [if_neg h]

theorem lowerChar_idem (c : Char) : lowerChar (lowerChar c) = lowerChar c := by
  by_cases h : 'A' ≤ c ∧ c ≤ 'Z'
  · have hn := lowerChar_toNat_of_upper h
    have h65 : 65 ≤ c.toNat := h.1
    have h90 : c.toNat ≤ 90 := h.2
    have hnot : ¬ ('A' ≤ lowerChar c ∧ lowerChar c ≤ 'Z') := by
      intro hc
      have : (lowerChar c).toNat ≤ 90 := hc.2
      omega
    exact lowerChar_of_not_upper hnot
  · rw [lowerChar_of_not_upper h, lowerChar_of_not_upper h]

theorem lowerChar_ne_space {c : Char} (hc : c ≠ ' ') : lowerChar c ≠ ' ' := by
  by_cases h : 'A' ≤ c ∧ c ≤ 'Z'
  · have hn := lowerChar_toNat_of_upper h
    have h65 : 65 ≤ c.toNat := h.1
    intro he
    rw [he] at hn
    have h32 : (' ' : Char).toNat = 32 := rfl
    omega
  · rw [lowerChar_of_not_upper h]
    exact hc

/-- Every character of `lowerStr (replaceSpace s)` is a non-space fixed
point of `lowerChar`. -/
theorem mem_lower_replace {s : String} {c : Char}
    (h : c ∈ (lowerStr (replaceSpace s)).data) : c ≠ ' ' ∧ lowerChar c = c := by
  simp only [lowerStr, replaceSpace, List.map_map, List.mem_map] at h
  obtain ⟨a, _, ha⟩ := h
  refine ⟨?_, by rw [← ha]; exact lowerChar_idem _⟩
  rw [← ha]
  simp only [Function.comp_apply]
  by_cases hsp : a = ' '
  · rw [if_pos hsp]
    decide
  · rw [if_neg hsp]
    exact lowerChar_ne_space hsp

theorem dropWhile_of_dropWhile_eq_self {p : Char → Bool} :
    ∀ {r y : List Char}, List.dropWhile p r = r → y <+: r → List.dropWhile p y = y := by
  intro r y hr hy
  cases y with
  | nil => rfl
  | cons a t =>
      obtain ⟨rest, hrest⟩ := hy
      rw [List.cons_append] at hrest
      have hpa : ¬ p a = true := by
        intro hpa
        rw [← hrest, List.dropWhile_cons, if_pos hpa] at hr
        have hlen := congrArg List.length hr
        have hle : (List.dropWhile p (t ++ rest)).length ≤ (t ++ rest).length :=
          (List.dropWhile_suffix p).sublist.length_le
        simp only [List.length_cons, List.length_append] at hlen hle
        omega
      rw [List.dropWhile_cons, if_neg hpa]

theorem str_ext {a b : String} (h : a.data = b.data) : a = b := by
  cases a
  cases b
  cases h
  rfl

/-- The data of `trimStr s` is the two-sided `dropWhile` of the data of
`s`. -/
theorem trimStr_data (s : String) :
    (trimStr s).data
      = List.dropWhile Char.isWhitespace
          ((s.data.reverse.dropWhile Char.isWhitespace).reverse) := rfl

theorem trimRight_of_trimmed {l : List Char}
    (h : List.dropWhile Char.isWhitespace l.reverse = l.reverse) :
    ((List.dropWhile Char.isWhitespace l).reverse.dropWhile Char.isWhitespace).reverse
      = List.dropWhile Char.isWhitespace l := by
  have hpre : (List.dropWhile Char.isWhitespace l).reverse <+: l.reverse :=
    List.reverse_prefix.mpr (List.dropWhile_suffix Char.isWhitespace)
  rw [dropWhile_of_dropWhile_eq_self h hpre, List.reverse_reverse]

theorem trimStr_idem (s : String) : trimStr (trimStr s) = trimStr s := by
  apply str_ext
  simp only [trimStr_data]
  have hr : List.dropWhile Char.isWhitespace
      ((s.data.reverse.dropWhile Char.isWhitespace).reverse).reverse
      = ((s.data.reverse.dropWhile Char.isWhitespace).reverse).reverse := by
    rw [List.reverse_reverse]
    exact List.dropWhile_idempotent _ _
  rw [trimRight_of_trimmed hr]
  exact List.dropWhile_idempotent _ _

/-- Characters survive `trimStr`. -/
theorem mem_of_mem_trimStr {s : String} {c : Char} (h : c ∈ (trimStr s).data) :
    c ∈ s.data := by
  rw [trimStr_data] at h
  have h1 := (List.dropWhile_suffix (l :=
    (s.data.reverse.dropWhile Char.isWhitespace).reverse) Char.isWhitespace).sublist.mem h
  have h2 := (List.dropWhile_suffix (l := s.data.reverse) Char.isWhitespace).sublist.mem
    (List.mem_reverse.mp h1)
  exact List.mem_reverse.mp h2

theorem map_id_of_fixed {f : Char → Char} :
    ∀ {l : List Char}, (∀ c ∈ l, f c = c) → l.map f = l := by
  intro l h
  rw [List.map_eq_map_iff.mpr h]
  simp

/-- The slug function of the heading rewriter is idempotent. -/
theorem slugOf_idem (s : String) : slugOf (slugOf s) = slugOf s := by
  have hmem : ∀ c ∈ (slugOf s).data, c ≠ ' ' ∧ lowerChar c = c := by
    intro c hc
    exact mem_lower_replace (mem_of_mem_trimStr hc)
  have h1 : replaceSpace (slugOf s) = slugOf s := by
    apply str_ext
    show (slugOf s).data.map _ = (slugOf s).data
    apply map_id_of_fixed
    intro c hc
    rw [if_neg (hmem c hc).1]
  have h2 : lowerStr (slugOf s) = slugOf s := by
    apply str_ext
    show (slugOf s).data.map _ = (slugOf s).data
    apply map_id_of_fixed
    intro c hc
    exact (hmem c hc).2
  show trimStr (lowerStr (replaceSpace (slugOf s))) = slugOf s
  rw [h1, h2]
  exact trimStr_idem _

/-! ### Code-block chunk lemmas (for claim C5) -/

/-- The per-line fold only ever appends to the buffer. -/
theorem code_fold_factor (lang : Option String) :
    ∀ (lines : List String) (buf : String) (ff : FoldFlags),
      lines.foldl (code_line_step lang) (buf, ff)
        = (buf ++ (lines.foldl (code_line_step lang) ("", ff)).1,
           (lines.foldl (code_line_step lang) ("", ff)).2) := by
  intro lines
  induction lines with
  | nil =>
      intro buf ff
      simp only [List.foldl_nil, str_append_empty]
  | cons l rest ih =>
      intro buf ff
      simp only [List.foldl_cons, code_line_step, str_empty_append]
      rw [ih (buf ++ (process_code_line lang ff l).1) (process_code_line lang ff l).2,
          ih (process_code_line lang ff l).1 (process_code_line lang ff l).2]
      rw [String.append_assoc]

/-- `"<pre><code>"` has no nonempty suffix that is a prefix of
`"<span></span>\n"`, so the trailing trim can never eat into it. -/
theorem pre_code_no_overlap :
    ∀ k, k < ("<pre><code>" : String).data.length →
      ¬ (("<pre><code>" : String).data.drop k <+: ("<span></span>\n" : String).data) := by
  decide

/-- Removing trailing repetitions of `pat` preserves a prefix `pre` no
suffix of which begins `pat`. -/
theorem prefix_dropSuffixRepeat (pre pat : List Char)
    (H : ∀ k, k < pre.length → ¬ (pre.drop k <+: pat)) :
    ∀ (n : Nat) (l : List Char), pre <+: l → pre <+: dropSuffixRepeat pat n l := by
  intro n
  induction n with
  | zero => intro l h; exact h
  | succ m ih =>
      intro l h
      unfold dropSuffixRepeat
      by_cases hc : (isSuffixListB pat l && !pat.isEmpty) = true
      · rw [if_pos hc]
        have hsuf : pat <:+ l := suffixB_iff.mp (Bool.and_eq_true_iff.mp hc).1
        obtain ⟨l', hl'⟩ := hsuf
        have hlen : l.length - pat.length = l'.length := by
          rw [← hl']
          simp [List.length_append]
        have htake : l.take (l.length - pat.length) = l' := by
          rw [hlen, ← hl', List.take_left]
        rw [htake]
        apply ih
        rcases le_or_lt pre.length l'.length with hle | hlt
        · exact List.prefix_of_prefix_length_le h ⟨pat, hl'⟩ hle
        · exfalso
          have hl'pre : l' <+: pre :=
            List.prefix_of_prefix_length_le ⟨pat, hl'⟩ h (Nat.le_of_lt hlt)
          obtain ⟨t, ht⟩ := hl'pre
          have hdrop : pre.drop l'.length = t := by
            rw [← ht, List.drop_left]
          have htp : t <+: pat := by
            have hh : l' ++ t <+: l' ++ pat := by rw [ht, hl']; exact h
            exact (List.prefix_append_right_inj l').mp hh
          exact absurd (hdrop ▸ htp) (H l'.length hlt)
      · rw [if_neg hc]
        exact h

/-- Trimming trailing `<span></span>\n` runs keeps the `<pre><code>`
preamble at the front of the buffer. -/
theorem pre_code_prefix_trim (t : String)
    (h : ("<pre><code>" : String).data <+: t.data) :
    ("<pre><code>" : String).data <+: (trim_end_matches t ("<span></span>\n")).data := by
  show ("<pre><code>" : String).data
    <+: dropSuffixRepeat ("<span></span>\n" : String).data t.data.length t.data
  exact prefix_dropSuffixRepeat _ _ pre_code_no_overlap _ _ h

/-! ### Claim C5 -/

/-- Claim C5, amended: the `Html` payload emitted at `End(CodeBlock)` gets
one `<pre><code>`/`</code></pre>` pair per `Text` event, not per block.
When the block's content arrives in a single borrowed `Text` event the
payload starts with `<pre><code>` and ends with `</code></pre>`; a fenced
block with no `Text` events emits `Html("")`. -/
theorem c5_code_block_chunks (base_url page_path lang txt : String) :
    (∃ s,
      (parse_events base_url page_path
        [.start (.codeBlock (.fenced (.borrowed lang))),
         .text (.borrowed txt), .endTag .codeBlock]).new_events
        = [.html (.boxed s)]
      ∧ strHasPrefixB ("<pre><code>") s = true
      ∧ strHasSuffixB ("</code></pre>") s = true)
    ∧ (parse_events base_url page_path
        [.start (.codeBlock (.fenced (.borrowed lang))),
         .endTag .codeBlock]).new_events
        = [.html (.boxed "")] := by
  constructor
  · refine ⟨(rewrite_code_text (some lang) "" ⟨false, false⟩ txt).1, rfl, ?_, ?_⟩
    · rw [strHasPrefixB_iff]
      show ("<pre><code>" : String).data
        <+: ((trim_end_matches
              ((strSplitChar '\n' txt).foldl (code_line_step (some lang))
                ("" ++ "<pre><code>", ⟨false, false⟩)).1 ("<span></span>\n"))
            ++ "</code></pre>").data
      rw [str_empty_append, code_fold_factor]
      have hpre : ("<pre><code>" : String).data
          <+: ("<pre><code>"
              ++ ((strSplitChar '\n' txt).foldl (code_line_step (some lang))
                  ("", ⟨false, false⟩)).1).data :=
        ⟨((strSplitChar '\n' txt).foldl (code_line_step (some lang)) ("", ⟨false, false⟩)).1.data,
         rfl⟩
      exact (pre_code_prefix_trim _ hpre).trans ⟨("</code></pre>" : String).data, rfl⟩
    · rw [strHasSuffixB_iff]
      exact ⟨(trim_end_matches
          ((strSplitChar '\n' txt).foldl (code_line_step (some lang))
            ("" ++ "<pre><code>", ⟨false, false⟩)).1 ("<span></span>\n")).data, rfl⟩
  · rfl

/-- Counterexample to C5 as stated: two `Text` events produce the preamble
twice (once per event), and an empty fenced block (no `Text` events)
produces `Html("")`, not `<pre><code></code></pre>`. -/
theorem c5_counterexample :
    (parse_events "https://e/" "blog/p"
      [.start (.codeBlock (.fenced (.borrowed ""))),
       .text (.borrowed "a"), .text (.borrowed "b"), .endTag .codeBlock]).new_events
      = [.html (.boxed
          "<pre><code><span>a</span>\n</code></pre><pre><code><span>b</span>\n</code></pre>")]
    ∧ countOccB "<pre><code>"
        "<pre><code><span>a</span>\n</code></pre><pre><code><span>b</span>\n</code></pre>" = 2
    ∧ (parse_events "https://e/" "blog/p"
        [.start (.codeBlock (.fenced (.borrowed ""))), .endTag .codeBlock]).new_events
      = [.html (.boxed "")]
    ∧ ("" : String) ≠ "<pre><code></code></pre>" := by
  refine ⟨by decide, by decide, rfl, by decide⟩

/-! ### Association-list lemmas and the feed accumulation (for claim C1) -/

theorem lookupA_updateA {β : Type} :
    ∀ (l : List (String × β)) (k : String) (v v0 : β),
      lookupA l k = some v0 → lookupA (updateA l k v) k = some v := by
  intro l
  induction l with
  | nil => intro k v v0 h; cases h
  | cons p rest ih =>
      intro k v v0 h
      obtain ⟨k', v'⟩ := p
      by_cases hk : k' = k
      · simp [updateA, lookupA, hk]
      · simp only [lookupA, if_neg hk] at h
        simp only [updateA, if_neg hk, lookupA]
        exact ih k v v0 h

theorem lookupA_append_self {β : Type} :
    ∀ (l : List (String × β)) (k : String) (v : β),
      lookupA l k = none → lookupA (l ++ [(k, v)]) k = some v := by
  intro l
  induction l with
  | nil => intro k v _; simp [lookupA]
  | cons p rest ih =>
      intro k v h
      obtain ⟨k', v'⟩ := p
      by_cases hk : k' = k
      · simp [lookupA, hk] at h
      · simp only [lookupA, if_neg hk] at h
        simp only [List.cons_append, lookupA, if_neg hk]
        exact ih k v h

/-- After the page's feed exists, each further batch is appended (the
pending list having been drained). -/
theorem feed_fold_aux (page : PageWithEntries) :
    ∀ (batches : List (List RssItem)) (feeds : List (String × RssFeed))
      (nm ds : Option String) (items : List RssItem),
      lookupA feeds page.name = some ⟨nm, ds, items⟩ →
      lookupA (feed_batches_fold page (feeds, []) batches).1 page.name
        = some ⟨nm, ds, items ++ batches.flatten⟩ := by
  intro batches
  induction batches with
  | nil =>
      intro feeds nm ds items h
      simpa [feed_batches_fold] using h
  | cons b rest ih =>
      intro feeds nm ds items h
      have hstep : feed_batches_fold page (feeds, []) (b :: rest)
          = feed_batches_fold page (updateA feeds page.name ⟨nm, ds, items ++ b⟩, []) rest := by
        simp [feed_batches_fold, update_feed_context, h]
      rw [hstep]
      have hlk := lookupA_updateA feeds page.name (⟨nm, ds, items ++ b⟩ : RssFeed) _ h
      rw [ih _ nm ds (items ++ b) hlk]
      simp [List.append_assoc]

/-! ### Claim C1 -/

/-- Claim C1, amended: for an `rss: true` page whose entries contribute the
item batches `b :: rest`, the assembled feed holds the FIRST batch twice as
soon as there is a second entry (the `None` arm of the `feed_context` match
inserts a clone of `rss_items` without draining it, and the next entry's
`append` then re-adds it): the items are `dup_first_items (b :: rest)`,
i.e. `b ++ b ++ rest.flatten` when `rest ≠ []` and `b` when `rest = []`;
order is otherwise the append order. -/
theorem c1_feed_duplicates_first_batch (page : PageWithEntries) (b : List RssItem)
    (rest : List (List RssItem)) :
    lookupA (feed_batches_fold page ([], []) (b :: rest)).1 page.name
      = some ⟨page.rss_name, page.description, dup_first_items (b :: rest)⟩ := by
  have hstep : feed_batches_fold page ([], []) (b :: rest)
      = feed_batches_fold page
          ([(page.name, ⟨page.rss_name, page.description, b⟩)], b) rest := by
    simp [feed_batches_fold, update_feed_context, lookupA, insertA]
  rw [hstep]
  cases rest with
  | nil => simp [feed_batches_fold, lookupA, dup_first_items]
  | cons r rs =>
      have hstep2 : feed_batches_fold page
            ([(page.name, ⟨page.rss_name, page.description, b⟩)], b) (r :: rs)
          = feed_batches_fold page
              ([(page.name, ⟨page.rss_name, page.description, b ++ (b ++ r)⟩)], []) rs := by
        simp [feed_batches_fold, update_feed_context, lookupA, updateA]
      rw [hstep2]
      have h0 : lookupA
          [(page.name, (⟨page.rss_name, page.description, b ++ (b ++ r)⟩ : RssFeed))]
          page.name = some ⟨page.rss_name, page.description, b ++ (b ++ r)⟩ := by
        simp [lookupA]
      rw [feed_fold_aux page rs _ _ _ _ h0]
      simp [dup_first_items, List.append_assoc]

/-- Counterexample to C1 as stated: a page with two `File` entries, each
yielding one item (titles `A` and `B`), emits a feed with THREE items —
`A, A, B` — not two. -/
theorem c1_counterexample :
    feedItemTitles (build_from_dir happyWorld rssTwoEntriesConfig)
      = [[some "A", some "A", some "B"]]
    ∧ feedItemTitles (build_from_dir happyWorld rssTwoEntriesConfig)
      ≠ [[some "A", some "B"]] := by
  refine ⟨by decide, by decide⟩

/-! ### Alias-stub lemmas (for claim C2) -/

theorem write_alias_list_mono (w : World) (dd pn stem title : String) :
    ∀ (as : List String) (st st' : BuildState),
      write_alias_list w dd pn stem title as st = .ok st' →
      ∀ x ∈ st.written, x ∈ st'.written := by
  intro as
  induction as with
  | nil =>
      intro st st' h x hx
      cases h
      exact hx
  | cons a rest ih =>
      intro st st' h x hx
      simp only [write_alias_list, outcome_bind_eq] at h
      rw [outcome_bind_ok] at h
      obtain ⟨u, hu, h⟩ := h
      rw [outcome_bind_ok] at h
      obtain ⟨st1, hw, h⟩ := h
      refine ih st1 st' h x ?_
      rw [write_out_ok hw]
      exact List.mem_append_left _ hx

theorem write_alias_list_mem (w : World) (dd pn stem title : String) :
    ∀ (as : List String) (st st' : BuildState),
      write_alias_list w dd pn stem title as st = .ok st' →
      ∀ a ∈ as,
        (alias_target dd pn a, redirect_html title (pathJoin pn stem)) ∈ st'.written := by
  intro as
  induction as with
  | nil => intro st st' _ a ha; cases ha
  | cons a0 rest ih =>
      intro st st' h a ha
      simp only [write_alias_list, outcome_bind_eq] at h
      rw [outcome_bind_ok] at h
      obtain ⟨u, hu, h⟩ := h
      rw [outcome_bind_ok] at h
      obtain ⟨st1, hw, h⟩ := h
      rcases List.mem_cons.mp ha with rfl | hmem
      · have hin : (alias_target dd pn a, redirect_html title (pathJoin pn stem))
            ∈ st1.written := by
          rw [write_out_ok hw]
          exact List.mem_append_right _ (List.mem_singleton.mpr rfl)
        exact write_alias_list_mono w dd pn stem title rest st1 st' h _ hin
      · exact ih st1 st' h a hmem

/-! ### Claim C2 -/

/-- Claim C2, amended: alias-redirect stubs are written only by the
`Entry::Dir` branch. There, for every alias `a` of a successfully processed
entry, `<dest_dir>/<page>/<a>/index.html` is written with the literal
redirect template instantiated with the entry's title and the canonical
`<page>/<stem>` path. An `Entry::File` that is processed successfully adds
exactly one file — its own `<dest_dir>/<page>/<stem>/index.html` — and no
alias stubs, whatever its metadata's aliases say. -/
theorem c2_alias_stubs :
    (∀ (w : World) (dd pn stem title : String) (as : List String) (st st' : BuildState),
      write_alias_list w dd pn stem title as st = .ok st' →
      ∀ a ∈ as,
        (alias_target dd pn a, redirect_html title (pathJoin pn stem)) ∈ st'.written)
    ∧ (∀ (w : World) (config : Config) (page : PageWithEntries) (mp tp : String)
         (st : BuildState) (ml : List Metadata) (ri : List RssItem)
         (out : BuildState × List Metadata × List RssItem) (stem : String),
        fileStem mp = some stem →
        process_file_entry w config page mp tp st ml ri = .ok out →
        ∃ html, out.1.written
          = st.written ++ [(entry_target config.dest_dir page.name stem, html)]) := by
  constructor
  · exact fun w dd pn stem title as st st' h =>
      write_alias_list_mem w dd pn stem title as st st' h
  · intro w config page mp tp st ml ri out stem hstem h
    simp only [process_file_entry, hstem, outcome_bind_eq, outcome_ok_bind] at h
    rw [outcome_bind_ok] at h
    obtain ⟨md, hr, h⟩ := h
    rw [outcome_bind_ok] at h
    obtain ⟨pp, hp, h⟩ := h
    cases hm : pp.metadata with
    | none =>
        simp only [hm, outcome_panicked_bind] at h
        cases h
    | some m0 =>
        simp only [hm] at h
        rw [outcome_bind_ok] at h
        obtain ⟨html, hre, h⟩ := h
        cases hrss : page.rss with
        | true =>
            rw [if_pos hrss] at h
            rw [outcome_bind_ok] at h
            obtain ⟨item, hit, h⟩ := h
            rw [outcome_bind_ok] at h
            obtain ⟨y, hy, h⟩ := h
            rw [outcome_bind_ok] at h
            obtain ⟨u, hu, h⟩ := h
            rw [outcome_bind_ok] at h
            obtain ⟨st1, hw, h⟩ := h
            cases h
            exact ⟨html, write_out_ok hw⟩
        | false =>
            rw [if_neg (by simp [hrss])] at h
            rw [outcome_bind_ok] at h
            obtain ⟨y, hy, h⟩ := h
            rw [outcome_bind_ok] at h
            obtain ⟨u, hu, h⟩ := h
            rw [outcome_bind_ok] at h
            obtain ⟨st1, hw, h⟩ := h
            cases h
            exact ⟨html, write_out_ok hw⟩

set_option maxRecDepth 8192 in
/-- Witness for the amended C2, at a concrete alias list and a concrete
`File` entry. -/
theorem c2_alias_stubs_witness :
    (alias_target "dest" "blog" "old", redirect_html "T" (pathJoin "blog" "a"))
      ∈ (BuildState.mk
          [(alias_target "dest" "blog" "old", redirect_html "T" (pathJoin "blog" "a"))]
          []).written
    ∧ ∃ html,
        (BuildState.mk [("dest/blog/a/index.html", "HTML")] [],
          [{ mkMetadata "A" with file_name := "a" }],
          ([] : List RssItem)).1.written
          = (initBuildState).written ++ [(entry_target "dest" "blog" "a", html)] := by
  constructor
  · exact c2_alias_stubs.1 happyWorld "dest" "blog" "a" "T" ["old"] initBuildState
      (BuildState.mk
        [(alias_target "dest" "blog" "old", redirect_html "T" (pathJoin "blog" "a"))] [])
      (by decide) "old" (by decide)
  · exact c2_alias_stubs.2 happyWorld oneFileEntryConfig
      { name := "blog", description := none, rss := false, rss_name := none,
        template_path := "t.html", entries := [.file "a.md" "t.html"] }
      "a.md" "t.html" initBuildState [] []
      (BuildState.mk [("dest/blog/a/index.html", "HTML")] [],
        [{ mkMetadata "A" with file_name := "a" }], ([] : List RssItem))
      "a" (by decide) (by decide)

/-- Counterexample to C2 as stated: a `File` entry whose metadata carries
the alias `old-name` produces no `dest/blog/old-name/index.html`; the only
files written are the entry page and the listing page. -/
theorem c2_counterexample :
    (match build_from_dir aliasWorld oneFileEntryConfig with
     | .ok st => st.written.map Prod.fst
     | _ => []) = ["dest/blog/a/index.html", "dest/blog/index.html"]
    ∧ "dest/blog/old-name/index.html"
      ∉ (match build_from_dir aliasWorld oneFileEntryConfig with
         | .ok st => st.written.map Prod.fst
         | _ => []) := by
  refine ⟨by decide, by decide⟩

/-! ### Claim C3 -/

/-- Claim C3, amended: a missing-metadata entry is handled differently by
the two entry kinds. For a `Dir`-expanded file the build returns the error
`failed to extract metadata from file "<path>"` (the `ok_or` at source
lines 446-455); for an `Entry::File` the build PANICS on the `.unwrap()`
at source line 559 instead of returning an error. -/
theorem c3_missing_metadata (w : World) (config : Config) (page : PageWithEntries) :
    (∀ (tp file : String) (acc : BuildState × List Metadata × List RssItem)
       (md stem : String) (pp : PuggleParser),
      w.read_to_string file = .ok md →
      fileStem file = some stem →
      parse w.deserialize_yaml config.base_url (page.name ++ "/" ++ stem)
        (w.parse_markdown md) = .ok pp →
      pp.metadata = none →
      process_dir_file w config page tp file acc
        = .fail (.msg ("failed to extract metadata from file \"" ++ file ++ "\"")))
    ∧ (∀ (mp tp : String) (st : BuildState) (ml : List Metadata) (ri : List RssItem)
         (md stem : String) (pp : PuggleParser),
      fileStem mp = some stem →
      w.read_to_string mp = .ok md →
      parse w.deserialize_yaml config.base_url (page.name ++ "/" ++ stem)
        (w.parse_markdown md) = .ok pp →
      pp.metadata = none →
      process_file_entry w config page mp tp st ml ri
        = .panicked "called Option::unwrap on a None value") := by
  constructor
  · intro tp file acc md stem pp hr hstem hp hm
    obtain ⟨st, ml, ri⟩ := acc
    simp only [process_dir_file, hr, hstem, hp, hm, liftIo, liftYaml,
      outcome_bind_eq, outcome_ok_bind, outcome_fail_bind]
  · intro mp tp st ml ri md stem pp hstem hr hp hm
    simp only [process_file_entry, hstem, hr, hp, hm, liftIo, liftYaml,
      outcome_bind_eq, outcome_ok_bind, outcome_panicked_bind]

/-- Witness for the amended C3 on concrete worlds: the `Dir` path yields
the error with the path in its message, the `File` path panics. -/
theorem c3_missing_metadata_witness :
    process_dir_file noMetaWorld oneFileEntryConfig
      { name := "blog", description := none, rss := false, rss_name := none,
        template_path := "t.html", entries := [.file "a.md" "t.html"] }
      "t.html" "a.md" (initBuildState, [], [])
      = .fail (.msg ("failed to extract metadata from file \"" ++ "a.md" ++ "\""))
    ∧ process_file_entry noMetaWorld oneFileEntryConfig
        { name := "blog", description := none, rss := false, rss_name := none,
          template_path := "t.html", entries := [.file "a.md" "t.html"] }
        "a.md" "t.html" initBuildState [] []
      = .panicked "called Option::unwrap on a None value" := by
  constructor
  · exact (c3_missing_metadata noMetaWorld oneFileEntryConfig
      { name := "blog", description := none, rss := false, rss_name := none,
        template_path := "t.html", entries := [.file "a.md" "t.html"] }).1
      "t.html" "a.md" (initBuildState, [], []) "mda" "a"
      { metadata := none, events := [] }
      (by rfl) (by decide) (by rfl) (by decide)
  · exact (c3_missing_metadata noMetaWorld oneFileEntryConfig
      { name := "blog", description := none, rss := false, rss_name := none,
        template_path := "t.html", entries := [.file "a.md" "t.html"] }).2
      "a.md" "t.html" initBuildState [] [] "mda" "a"
      { metadata := none, events := [] }
      (by decide) (by rfl) (by rfl) (by decide)

/-- Counterexample to C3 as stated: a whole build over a `File` entry whose
markdown has no front matter PANICS (`Option::unwrap`), it does not return
a 'missing metadata' error. -/
theorem c3_counterexample :
    build_from_dir noMetaWorld oneFileEntryConfig
      = .panicked "called Option::unwrap on a None value" := by
  decide

/-! ### Claim C4 -/

/-- Claim C4, amended: errors raised while reading, parsing or rendering an
entry propagate as the build's returned first error (sample: a read error
on a `File` entry becomes `Err(Io)`), BUT a filesystem error while writing
a standalone/listing page's `index.html` is silently discarded
(`let _ = std::fs::write(...)`, source line 649) — the loop continues and
the build can return `Ok` — and an error while creating the RSS feed file
panics (`File::create(...).unwrap()`, source line 678) instead of being
returned. -/
theorem c4_error_handling :
    (∀ (w : World) (config : Config) (ctx : List (String × List Metadata))
       (st : BuildState) (page : Page) (html e : String),
      w.get_template_render page.get_template_path ctx = .ok html →
      ensure_parent_dir w (standalone_target config page) = .ok () →
      w.write_file (standalone_target config page) html = .error e →
      render_standalone_page w config ctx st page = .ok st)
    ∧ (∀ (w : World) (config : Config) (st : BuildState) (nm : String)
         (feed : RssFeed) (e : String),
      w.create_file (withExtension (pathJoin config.dest_dir nm) "rss") = .error e →
      write_rss_feed w config st (nm, feed)
        = .panicked "called Result::unwrap on an Err value")
    ∧ (∀ (w : World) (config : Config) (page : PageWithEntries) (mp tp : String)
         (st : BuildState) (ml : List Metadata) (ri : List RssItem) (stem e : String),
      fileStem mp = some stem →
      w.read_to_string mp = .error e →
      process_file_entry w config page mp tp st ml ri = .fail (.io e)) := by
  refine ⟨?_, ?_, ?_⟩
  · intro w config ctx st page html e h1 h2 h3
    simp only [render_standalone_page, h1, h2, h3, outcome_bind_eq, outcome_ok_bind,
      outcome_pure_eq]
  · intro w config st nm feed e h
    simp only [write_rss_feed, h]
  · intro w config page mp tp st ml ri stem e hstem hr
    simp only [process_file_entry, hstem, hr, liftIo,
      outcome_bind_eq, outcome_ok_bind, outcome_fail_bind]

/-- Witness for the amended C4 on concrete worlds. -/
theorem c4_error_handling_witness :
    render_standalone_page writeFailWorld oneStandaloneConfig [] initBuildState
      (.standalone { name := "about", template_path := "about.html" })
      = .ok initBuildState
    ∧ write_rss_feed createFailWorld oneStandaloneConfig initBuildState
        ("blog", { name := none, description := none, items := [] })
      = .panicked "called Result::unwrap on an Err value"
    ∧ process_file_entry happyWorld oneFileEntryConfig
        { name := "blog", description := none, rss := false, rss_name := none,
          template_path := "t.html", entries := [.file "a.md" "t.html"] }
        "zz.md" "t.html" initBuildState [] []
      = .fail (.io "not found") := by
  refine ⟨?_, ?_, ?_⟩
  · exact c4_error_handling.1 writeFailWorld oneStandaloneConfig [] initBuildState
      (.standalone { name := "about", template_path := "about.html" })
      "LIST" "disk full" (by rfl) (by decide) (by rfl)
  · exact c4_error_handling.2.1 createFailWorld oneStandaloneConfig initBuildState
      "blog" { name := none, description := none, items := [] } "permission denied"
      (by rfl)
  · exact c4_error_handling.2.2 happyWorld oneFileEntryConfig
      { name := "blog", description := none, rss := false, rss_name := none,
        template_path := "t.html", entries := [.file "a.md" "t.html"] }
      "zz.md" "t.html" initBuildState [] [] "zz" "not found" (by decide) (by rfl)

/-- Counterexample to C4 as stated: with every `std::fs::write` failing,
the build of a standalone page still returns `Ok` with nothing written —
the write error is dropped, not returned. -/
theorem c4_counterexample :
    build_from_dir writeFailWorld oneStandaloneConfig = .ok ⟨[], []⟩
    ∧ writeFailWorld.write_file "dest/about/index.html" "LIST" = .error "disk full" := by
  refine ⟨by decide, rfl⟩

/-! ### Claim C6 -/

/-- Claim C6, amended: a `### FOLD_END` line writes `</details>` and skips
the marker line but leaves both fold flags unchanged — in particular
`record_folded` stays set; consequently when the summary has not yet been
consumed (both flags set), the first non-marker line after `FOLD_END` is
still consumed as summary text followed by `</summary>`. -/
theorem c6_fold_end_keeps_flags :
    (∀ (lang : Option String) (ff : FoldFlags) (line : String),
      strHasPrefixB ("### FOLD_END") line = true →
      process_code_line lang ff line = ("</details>", ff))
    ∧ (∀ (lang : Option String) (line : String),
        strHasPrefixB ("### FOLD_START") line = false →
        strHasPrefixB ("### FOLD_END") line = false →
        process_code_line lang ⟨true, true⟩ line
          = (htmlEscape (stripLeadingSpace line) ++ "</summary>", ⟨true, false⟩)) := by
  constructor
  · intro lang ff line hEnd
    have hStart : strHasPrefixB ("### FOLD_START") line = false := by
      cases hv : strHasPrefixB ("### FOLD_START") line with
      | false => rfl
      | true =>
          have h1 := strHasPrefixB_iff.mp hEnd
          have h2 := strHasPrefixB_iff.mp hv
          have h3 : ("### FOLD_END" : String).data <+: ("### FOLD_START" : String).data :=
            List.prefix_of_prefix_length_le h1 h2 (by decide)
          exact absurd h3 (by decide)
    simp [process_code_line, hStart, hEnd]
  · intro lang line h1 h2
    simp [process_code_line, h1, h2]

/-- Witness for the amended C6. -/
theorem c6_fold_end_keeps_flags_witness :
    process_code_line (some "diff") ⟨true, true⟩ "### FOLD_END x"
      = ("</details>", ⟨true, true⟩)
    ∧ process_code_line none ⟨true, true⟩ " hello"
      = (htmlEscape (stripLeadingSpace " hello") ++ "</summary>", ⟨true, false⟩) :=
  ⟨c6_fold_end_keeps_flags.1 (some "diff") ⟨true, true⟩ "### FOLD_END x" (by decide),
   c6_fold_end_keeps_flags.2 none " hello" (by decide) (by decide)⟩

/-- Counterexample to C6 as stated: in a block whose text is
`### FOLD_START\n### FOLD_END\nnextline\n`, the line after `FOLD_END` is
consumed as summary text followed by `</summary>` (not emitted as an
ordinary `<span>` line), and `record_folded` is still set afterwards. -/
theorem c6_counterexample :
    (parse_events "https://e/" "blog/p"
      [.start (.codeBlock (.fenced (.borrowed ""))),
       .text (.borrowed "### FOLD_START\n### FOLD_END\nnextline\n"),
       .endTag .codeBlock]).new_events
      = [.html (.boxed
          "<pre><code><details><summary class=\"foldable\"></details>nextline</summary></code></pre>")]
    ∧ (parse_events "https://e/" "blog/p"
        [.start (.codeBlock (.fenced (.borrowed ""))),
         .text (.borrowed "### FOLD_START\n### FOLD_END\nnextline\n"),
         .endTag .codeBlock]).record_folded_code_block = true
    ∧ strHasInfixB "nextline</summary>"
        "<pre><code><details><summary class=\"foldable\"></details>nextline</summary></code></pre>"
        = true
    ∧ strHasInfixB "<span>nextline</span>"
        "<pre><code><details><summary class=\"foldable\"></details>nextline</summary></code></pre>"
        = false := by
  refine ⟨by decide, by decide, by decide, by decide⟩

/-! ### Claim C7 -/

/-- Claim C7: ending a non-H1 heading emits HTML whose `id` is the slug
`trim(lowercase(replace(heading_text, " ", "-")))` of the captured text and
whose anchor `href` ends in `#` followed by that slug; and the slug
function is idempotent. -/
theorem c7_heading_slug_anchor (base_url page_path : String) (st : ParseState)
    (level : HeadingLevel) (h : level ≠ .h1) :
    step base_url page_path st (.endTag (.heading level))
      = { st with
            new_events := st.new_events
              ++ [.html (.boxed ("<" ++ level.toStr ++ " id=\"" ++ slugOf st.heading_text
                    ++ "\"><a href=\""
                    ++ headingUrl base_url page_path (slugOf st.heading_text)
                    ++ "\">" ++ st.heading_text ++ "</a></" ++ level.toStr ++ ">"))],
            heading_text := "", record_heading := false }
    ∧ strHasSuffixB ("#" ++ slugOf st.heading_text)
        (headingUrl base_url page_path (slugOf st.heading_text)) = true
    ∧ ∀ T, slugOf (slugOf T) = slugOf T := by
  refine ⟨?_, ?_, fun T => slugOf_idem T⟩
  · cases level with
    | h1 => exact absurd rfl h
    | h2 => rfl
    | h3 => rfl
    | h4 => rfl
    | h5 => rfl
    | h6 => rfl
  · rw [strHasSuffixB_iff]
    refine ⟨(urlJoin base_url page_path).data, ?_⟩
    simp only [headingUrl, strdata_append, List.append_assoc]

/-- Witness for C7: a concrete H2 heading with captured text
`"My Heading"`. -/
theorem c7_heading_slug_anchor_witness :
    step "https://e/" "blog/p" c7State (.endTag (.heading .h2))
      = { c7State with
            new_events := c7State.new_events
              ++ [.html (.boxed ("<" ++ HeadingLevel.toStr .h2 ++ " id=\""
                    ++ slugOf c7State.heading_text ++ "\"><a href=\""
                    ++ headingUrl "https://e/" "blog/p" (slugOf c7State.heading_text)
                    ++ "\">" ++ c7State.heading_text ++ "</a></"
                    ++ HeadingLevel.toStr .h2 ++ ">"))],
            heading_text := "", record_heading := false }
    ∧ strHasSuffixB ("#" ++ slugOf c7State.heading_text)
        (headingUrl "https://e/" "blog/p" (slugOf c7State.heading_text)) = true
    ∧ slugOf (slugOf "My Heading") = slugOf "My Heading" := by
  have h := c7_heading_slug_anchor "https://e/" "blog/p" c7State .h2 (by decide)
  exact ⟨h.1, h.2.1, h.2.2 "My Heading"⟩

/-! ### Claim C8 -/

/-- Claim C8: for every `Metadata` produced by `parse`, `unix_created_at`
equals `created_at.map unix_timestamp` (hence is present iff `created_at`
is), likewise for `unix_updated_at`; and the unix fields of the value the
deserializer returned are irrelevant — `augment_metadata` gives the same
result whatever they were, so they are never taken from the input. -/
theorem c8_unix_fields (d : String → Except String Metadata) (base_url page_path : String)
    (evs : List Event) (pp : PuggleParser) (m : Metadata) :
    (parse d base_url page_path evs = .ok pp → pp.metadata = some m →
      m.unix_created_at = m.created_at.map OffsetDateTime.unix_timestamp
      ∧ m.unix_updated_at = m.updated_at.map OffsetDateTime.unix_timestamp)
    ∧ (∀ (md : Metadata) (x y : Option Int),
        augment_metadata { md with unix_created_at := x, unix_updated_at := y }
          = augment_metadata md) := by
  constructor
  · intro hp hm
    cases hmd : (parse_events base_url page_path evs).metadata with
    | none =>
        simp only [parse, hmd] at hp
        cases hp
        cases hm
    | some mtxt =>
        cases hd : d mtxt with
        | error e => simp only [parse, hmd, hd] at hp; cases hp
        | ok md =>
            simp only [parse, hmd, hd] at hp
            cases hp
            rw [show m = augment_metadata md from Option.some.inj hm.symm]
            simp [augment_metadata]
  · intro md x y
    simp [augment_metadata]

/-- Witness for C8: a concrete parse whose front matter deserializes with
junk unix fields; the parsed metadata's unix fields come from the
timestamps instead. -/
theorem c8_unix_fields_witness :
    parse c8Deser "https://e/" "blog/p" c8Events = .ok c8Parsed
    ∧ c8Parsed.metadata = some c8Meta
    ∧ c8Meta.unix_created_at = c8Meta.created_at.map OffsetDateTime.unix_timestamp
    ∧ c8Meta.unix_updated_at = c8Meta.updated_at.map OffsetDateTime.unix_timestamp := by
  have h := (c8_unix_fields c8Deser "https://e/" "blog/p" c8Events c8Parsed c8Meta).1
    (by rfl) (by rfl)
  exact ⟨by rfl, by rfl, h.1, h.2⟩

end Puggle
